import Mathlib

/-!
Verification of the reconciliation / polling core of `setup.py`.

Shallow embedding conventions:
* Python values decoded from JSON (`json.loads`) are modelled by `Json`
  (only strings, arrays and objects occur in the documents this script
  handles); decoded Python dicts have unique keys, and object entries keep
  the insertion order of the decoded text.
* Remote AWS / HTTP state is passed explicitly; `sys.exit(1)` is modelled
  by an `Option`/dedicated constructor (`none` or an `exit`-like outcome).
* Remote-call counting: functions that the claims quantify over return the
  number of mutating (write) and read calls they issue.
-/

namespace Setup

/-- JSON values as decoded by `json.loads` (the documents handled by the
script contain only strings, arrays and objects). -/
inductive Json where
  | str (s : String)
  | arr (xs : List Json)
  | obj (kvs : List (String × Json))

/-- Association lookup, first match wins — the behaviour of `d.get(k)` /
`d[k]` on a decoded dict represented as its (unique-key) entry list. -/
def lookupA {α : Type} (k : String) : List (String × α) → Option α
  | [] => none
  | (k', v) :: rest => if k' = k then some v else lookupA k rest

mutual

/-- Python `==` on decoded JSON values: strings compare as strings, lists
pointwise in order, dicts as unordered key→value maps (entry order is
irrelevant).  Object entry lists are assumed to have unique keys, which is
what `json.loads` produces. -/
def pyEq : Json → Json → Bool
  | .str a, .str b => a = b
  | .arr xs, .arr ys => pyEqList xs ys
  | .obj a, .obj b => a.length = b.length && pyEqObj a b
  | _, _ => false
termination_by a _ => sizeOf a
decreasing_by all_goals simp_wf

/-- Pointwise Python `==` on two lists (same length required). -/
def pyEqList : List Json → List Json → Bool
  | [], [] => true
  | x :: xs, y :: ys => pyEq x y && pyEqList xs ys
  | _, _ => false
termination_by xs _ => sizeOf xs
decreasing_by all_goals (simp_wf <;> omega)

/-- Every key of the first entry list is present in the second with a
`pyEq`-equal value. -/
def pyEqObj : List (String × Json) → List (String × Json) → Bool
  | [], _ => true
  | (k, v) :: rest, b =>
    (match lookupA k b with
     | some w => pyEq v w
     | none => false) && pyEqObj rest b
termination_by a _ => sizeOf a
decreasing_by all_goals (simp_wf <;> omega)

end

/-! ### `apply_bucket_policy`

A bucket-policy statement, as decoded by `json.loads`, is the entry list of
its top-level object.  The code builds `intended_statement`, looks for the
first current statement whose `Sid` is `"AllowLocalDockerAccess"`, and
either returns without any write (Python `stmt == intended_statement`),
updates that statement in place (`stmt.update(...)` then `break`), or
appends the intended statement; in the latter two cases it calls
`put_bucket_policy`. -/

/-- One decoded policy statement: the entry list of its JSON object. -/
abbrev Stmt := List (String × Json)

/-- `intended_statement` from `apply_bucket_policy` (setup.py:505-518), as
the entry list of its JSON object. -/
def intendedStatement (principalArn bucketName : String) : Stmt :=
  [("Sid", .str "AllowLocalDockerAccess"),
   ("Effect", .str "Allow"),
   ("Principal", .obj [("AWS", .str principalArn)]),
   ("Action", .arr [.str "s3:GetObject", .str "s3:PutObject", .str "s3:ListBucket"]),
   ("Resource", .arr [.str ("arn:aws:s3:::" ++ bucketName),
                      .str ("arn:aws:s3:::" ++ bucketName ++ "/*")])]

/-- `stmt.get("Sid") == "AllowLocalDockerAccess"` (setup.py:534). -/
def hasDockerSid (st : Stmt) : Bool :=
  match lookupA "Sid" st with
  | some (.str s) => s = "AllowLocalDockerAccess"
  | _ => false

/-- Python `dict.update`: existing keys are overwritten in place (keeping
their position), new keys are appended in order. -/
def dictUpdate (a b : Stmt) : Stmt :=
  (a.map fun p => match lookupA p.1 b with
     | some w => (p.1, w)
     | none => p) ++
  b.filter fun q => (lookupA q.1 a).isNone

/-- What `apply_bucket_policy` does after decoding the current policy. -/
inductive BucketPolicyAction where
  | noop
  | put (newStmts : List Stmt)

/-- The statement loop of `apply_bucket_policy` (setup.py:532-546):
`none` = no statement with the Sid was found; `some none` = found and
`pyEq`-equal (early return); `some (some l)` = found and updated in place
(`break` leaves the remaining statements untouched). -/
def applyStmtsLoop (intended : Stmt) : List Stmt → Option (Option (List Stmt))
  | [] => none
  | st :: rest =>
    if hasDockerSid st then
      if pyEq (.obj st) (.obj intended) then some none
      else some (some (dictUpdate st intended :: rest))
    else
      match applyStmtsLoop intended rest with
      | none => none
      | some none => some none
      | some (some rest') => some (some (st :: rest'))

/-- `apply_bucket_policy` (setup.py:496-555) restricted to its decision and
resulting statement list: `.noop` means no `put_bucket_policy` call is
made; `.put l` means `put_bucket_policy` is called with statement list
`l`. -/
def applyBucketPolicy (principalArn bucketName : String) (stmts : List Stmt) :
    BucketPolicyAction :=
  let intended := intendedStatement principalArn bucketName
  match applyStmtsLoop intended stmts with
  | some none => .noop
  | some (some stmts') => .put stmts'
  | none => .put (stmts ++ [intended])

/-! ### Structural (Python `==`) equality under key reordering -/

theorem lookupA_eq_some_of_mem {α : Type} {l : List (String × α)} {k : String} {v : α}
    (hnd : (l.map Prod.fst).Nodup) (hm : (k, v) ∈ l) : lookupA k l = some v := by
  induction l with
  | nil => cases hm
  | cons p rest ih =>
    simp only [List.map_cons, List.nodup_cons] at hnd
    rcases List.mem_cons.mp hm with h | h
    · subst h
      simp [lookupA]
    · have hk : p.1 ≠ k := by
        intro hpk
        exact hnd.1 (hpk ▸ (List.mem_map.mpr ⟨(k, v), h, rfl⟩))
      obtain ⟨p1, p2⟩ := p
      simp only [lookupA, if_neg hk]
      exact ih hnd.2 h

theorem pyEqObj_of_forall {a b : Stmt}
    (h : ∀ p ∈ a, ∃ w, lookupA p.1 b = some w ∧ pyEq p.2 w = true) :
    pyEqObj a b = true := by
  induction a with
  | nil => simp [pyEqObj]
  | cons p rest ih =>
    obtain ⟨w, hw, hpw⟩ := h p (List.mem_cons_self p rest)
    obtain ⟨p1, p2⟩ := p
    simp only [pyEqObj, hw, hpw, Bool.true_and]
    exact ih fun q hq => h q (List.mem_cons_of_mem _ hq)

theorem intendedStatement_keys_nodup (principalArn bucketName : String) :
    ((intendedStatement principalArn bucketName).map Prod.fst).Nodup := by
  simp [intendedStatement]

theorem pyEq_self_of_mem_intended {principalArn bucketName : String} {k : String} {v : Json}
    (hm : (k, v) ∈ intendedStatement principalArn bucketName) : pyEq v v = true := by
  simp only [intendedStatement, List.mem_cons, List.mem_singleton, Prod.mk.injEq] at hm
  rcases hm with ⟨-, h⟩ | ⟨-, h⟩ | ⟨-, h⟩ | ⟨-, h⟩ | ⟨-, h⟩ | h
  · subst h; simp [pyEq]
  · subst h; simp [pyEq]
  · subst h; simp [pyEq, pyEqObj, lookupA]
  · subst h; simp [pyEq, pyEqList]
  · subst h; simp [pyEq, pyEqList]
  · cases h

/-- A permutation of the entries of the intended statement is Python-`==`
to it.  Because the only nested object of `intended_statement`
(`Principal`) has a single key, the key-reorderings of the decoded
document are exactly the permutations of its top-level entry list. -/
theorem pyEq_obj_of_perm (principalArn bucketName : String) (st : Stmt)
    (h : st.Perm (intendedStatement principalArn bucketName)) :
    pyEq (.obj st) (.obj (intendedStatement principalArn bucketName)) = true := by
  have hobj : pyEqObj st (intendedStatement principalArn bucketName) = true := by
    refine pyEqObj_of_forall fun p hp => ?_
    have hmem : p ∈ intendedStatement principalArn bucketName := h.subset hp
    obtain ⟨p1, p2⟩ := p
    exact ⟨p2, lookupA_eq_some_of_mem (intendedStatement_keys_nodup _ _) hmem,
      pyEq_self_of_mem_intended hmem⟩
  simp [pyEq, h.length_eq, hobj]

theorem hasDockerSid_of_perm (principalArn bucketName : String) (st : Stmt)
    (h : st.Perm (intendedStatement principalArn bucketName)) :
    hasDockerSid st = true := by
  have hnd : (st.map Prod.fst).Nodup :=
    ((h.map Prod.fst).nodup_iff).mpr (intendedStatement_keys_nodup _ _)
  have hmem : ("Sid", Json.str "AllowLocalDockerAccess") ∈ st :=
    h.mem_iff.mpr (by simp [intendedStatement])
  simp [hasDockerSid, lookupA_eq_some_of_mem hnd hmem]

/-- C3: when the first statement carrying the Sid `AllowLocalDockerAccess`
is a key-reordering of (i.e. has entries that are a permutation of) the
intended statement, `apply_bucket_policy` makes no `put_bucket_policy`
call: Python compares the decoded documents structurally, not textually. -/
theorem applyBucketPolicy_noop_of_structural_match
    (principalArn bucketName : String) (pre post : List Stmt) (st : Stmt)
    (hpre : ∀ s ∈ pre, hasDockerSid s = false)
    (hperm : st.Perm (intendedStatement principalArn bucketName)) :
    applyBucketPolicy principalArn bucketName (pre ++ st :: post) = .noop := by
  have hloop : applyStmtsLoop (intendedStatement principalArn bucketName)
      (pre ++ st :: post) = some none := by
    induction pre with
    | nil =>
      simp [applyStmtsLoop, hasDockerSid_of_perm _ _ _ hperm,
        pyEq_obj_of_perm _ _ _ hperm]
    | cons s rest ih =>
      have hs : hasDockerSid s = false := hpre s (List.mem_cons_self s rest)
      have := ih fun q hq => hpre q (List.mem_cons_of_mem _ hq)
      simp [applyStmtsLoop, hs, this]
  simp [applyBucketPolicy, hloop]

/-- Witness for C3: a concrete current statement whose entries are the
reversal of the intended statement's entries triggers no update call. -/
theorem applyBucketPolicy_noop_witness :
    applyBucketPolicy "arn:aws:iam::123456789012:user/dev"
      "resourcely-campaigns-terraform-state-123456789012-us-west-2"
      [(intendedStatement "arn:aws:iam::123456789012:user/dev"
          "resourcely-campaigns-terraform-state-123456789012-us-west-2").reverse] =
      .noop :=
  applyBucketPolicy_noop_of_structural_match _ _ [] [] _
    (by simp) (List.reverse_perm _)

/-! ### `create_s3_bucket` and `attach_s3_policy_to_role` (remote-call counting) -/

/-- Mutating (write) and read remote calls issued by one invocation. -/
structure CallCount where
  mutations : Nat
  reads : Nat
deriving DecidableEq, Repr

/-- Remote S3 state relevant to `create_s3_bucket`: which buckets exist and
which have the (fixed, all-`True`) public-access-block configuration
applied. -/
structure S3State where
  buckets : List String
  pabApplied : List String
deriving DecidableEq, Repr

/-- The bucket name generated at setup.py:427. -/
def stateBucketName (accountId region : String) : String :=
  "resourcely-campaigns-terraform-state" ++ "-" ++ accountId ++ "-" ++ region

/-- Set-like insert: applying the fixed public-access-block configuration
twice leaves the remote state as after the first application. -/
def insertOnce (l : List String) (x : String) : List String :=
  if x ∈ l then l else x :: l

/-- `create_s3_bucket` (setup.py:418-465).  Reads counted: `head_bucket`
(the `bucket_exists` waiter's polls and `get_account_id`'s STS call are not
counted).  Mutations counted: `create_bucket` and the unconditional
`put_public_access_block`.  `head_bucket` failures with codes other than
404/NoSuchBucket exit the run and are outside this model. -/
def createS3Bucket (st : S3State) (accountId region : String) : S3State × CallCount :=
  let name := stateBucketName accountId region
  if name ∈ st.buckets then
    ({ st with pabApplied := insertOnce st.pabApplied name }, ⟨1, 1⟩)
  else
    ({ buckets := name :: st.buckets, pabApplied := insertOnce st.pabApplied name }, ⟨2, 1⟩)

/-- Remote IAM state relevant to `put_role_policy`: the inline policies,
keyed by (role name, policy name). -/
structure IamState where
  rolePolicies : List ((String × String) × Json)

/-- Upsert into an association list (first occurrence replaced, appended if
absent) — the semantics of `iam.put_role_policy`. -/
def setAssoc (k : String × String) (v : Json) :
    List ((String × String) × Json) → List ((String × String) × Json)
  | [] => [(k, v)]
  | p :: rest => if p.1 = k then (k, v) :: rest else p :: setAssoc k v rest

/-- `iam_client.put_role_policy` (one mutating remote call). -/
def putRolePolicy (st : IamState) (roleName policyName : String) (doc : Json) : IamState :=
  { rolePolicies := setAssoc (roleName, policyName) doc st.rolePolicies }

/-- The fixed `policy_document` of `attach_s3_policy_to_role`
(setup.py:563-595).  Note it does not mention the `bucket_name` argument:
it uses the `resourcely-campaigns*` wildcards. -/
def terraformStatePolicyDoc : Json :=
  .obj [("Version", .str "2012-10-17"),
        ("Statement", .arr
          [.obj [("Sid", .str "AllowS3ListBucket"),
                 ("Effect", .str "Allow"),
                 ("Action", .str "s3:ListBucket"),
                 ("Resource", .str "arn:aws:s3:::resourcely-campaigns*")],
           .obj [("Sid", .str "AllowS3ObjectAccess"),
                 ("Effect", .str "Allow"),
                 ("Action", .arr [.str "s3:GetObject", .str "s3:PutObject",
                                  .str "s3:DeleteObject"]),
                 ("Resource", .str "arn:aws:s3:::resourcely-campaigns*/*")],
           .obj [("Sid", .str "AllowFullS3BucketManagementForCampaigns"),
                 ("Effect", .str "Allow"),
                 ("Action", .str "s3:*"),
                 ("Resource", .str "*")],
           .obj [("Sid", .str "AllowS3GetBucketPolicy"),
                 ("Effect", .str "Allow"),
                 ("Action", .str "s3:GetBucketPolicy"),
                 ("Resource", .str "arn:aws:s3:::resourcely-campaigns*")]])]

/-- `attach_s3_policy_to_role` (setup.py:557-606): one unconditional
`put_role_policy` mutating call on every invocation; returns the new IAM
state and the number of mutating calls. -/
def attachS3PolicyToRole (st : IamState) (roleName bucketName : String) : IamState × Nat :=
  (putRolePolicy st roleName "TerraformStateS3AccessPolicy" terraformStatePolicyDoc, 1)

theorem mem_insertOnce_self (l : List String) (x : String) : x ∈ insertOnce l x := by
  unfold insertOnce
  by_cases h : x ∈ l <;> simp [h]

theorem insertOnce_idem (l : List String) (x : String) :
    insertOnce (insertOnce l x) x = insertOnce l x := by
  unfold insertOnce
  by_cases h : x ∈ l <;> simp [h]

theorem setAssoc_idem (k : String × String) (v : Json) :
    ∀ l, setAssoc k v (setAssoc k v l) = setAssoc k v l := by
  intro l
  induction l with
  | nil => simp [setAssoc]
  | cons p rest ih => by_cases h : p.1 = k <;> simp [setAssoc, h, ih]

/-- The steady state used by the C1 theorems: the bucket exists and its
public-access block is already applied. -/
def c1SteadyState : S3State :=
  { buckets := [stateBucketName "123456789012" "us-west-2"],
    pabApplied := [stateBucketName "123456789012" "us-west-2"] }

/-- C1 is false on the code: in the steady state where the bucket already
exists (with its public-access block applied), `create_s3_bucket` still
issues one mutating remote call (`put_public_access_block`), so two
identical sequential invocations issue two mutating calls, not at most
one, and the steady-state invocation does not make zero mutating calls. -/
theorem createS3Bucket_counterexample :
    (createS3Bucket c1SteadyState "123456789012" "us-west-2").2.mutations = 1 ∧
    (createS3Bucket c1SteadyState "123456789012" "us-west-2").2.mutations +
      (createS3Bucket (createS3Bucket c1SteadyState "123456789012" "us-west-2").1
        "123456789012" "us-west-2").2.mutations = 2 ∧
    ¬((createS3Bucket c1SteadyState "123456789012" "us-west-2").2.mutations +
      (createS3Bucket (createS3Bucket c1SteadyState "123456789012" "us-west-2").1
        "123456789012" "us-west-2").2.mutations ≤ 1) := by
  decide

/-- C1 amended: in the steady state `create_s3_bucket` performs exactly one
read (`head_bucket`) and exactly one mutating call
(`put_public_access_block`), and `attach_s3_policy_to_role` performs
exactly one mutating call (`put_role_policy`) on every invocation — so two
identical sequential invocations perform two mutating calls each, not at
most one; both operations are idempotent in their end state: the second
identical invocation returns exactly the result of the first. -/
theorem ensure_steady_state_calls (st : S3State) (ist : IamState)
    (accountId region roleName bucketName : String)
    (hsteady : stateBucketName accountId region ∈ st.buckets) :
    (createS3Bucket st accountId region).2 = ⟨1, 1⟩ ∧
    createS3Bucket (createS3Bucket st accountId region).1 accountId region =
      createS3Bucket st accountId region ∧
    (attachS3PolicyToRole ist roleName bucketName).2 = 1 ∧
    attachS3PolicyToRole (attachS3PolicyToRole ist roleName bucketName).1 roleName bucketName =
      attachS3PolicyToRole ist roleName bucketName := by
  refine ⟨?_, ?_, rfl, ?_⟩
  · simp [createS3Bucket, hsteady]
  · simp [createS3Bucket, hsteady, mem_insertOnce_self, insertOnce_idem]
  · simp [attachS3PolicyToRole, putRolePolicy, setAssoc_idem]

/-- Witness for the amended C1 at a concrete steady state. -/
theorem ensure_steady_state_calls_witness :
    stateBucketName "123456789012" "us-west-2" ∈ c1SteadyState.buckets ∧
    (createS3Bucket c1SteadyState "123456789012" "us-west-2").2 = ⟨1, 1⟩ :=
  ⟨by decide,
   (ensure_steady_state_calls c1SteadyState ⟨[]⟩ "123456789012" "us-west-2"
      "ResourcelyGithubActionsOIDC" "resourcely-campaigns-terraform-state-123456789012-us-west-2"
      (by decide)).1⟩

/-! ### `deploy_as_ecs_service` -/

/-- Python list `isPrefixOf`-style helper: is the first list a prefix of
the second? -/
def isPrefixChars : List Char → List Char → Bool
  | [], _ => true
  | _ :: _, [] => false
  | a :: as, b :: bs => a = b && isPrefixChars as bs

/-- Python `needle in hay` on strings: substring containment, as a scan of
every suffix. -/
def containsSub (needle : List Char) : List Char → Bool
  | [] => needle.isEmpty
  | c :: rest => isPrefixChars needle (c :: rest) || containsSub needle rest

theorem isPrefixChars_iff (a b : List Char) : isPrefixChars a b = true ↔ a <+: b := by
  induction a generalizing b with
  | nil => simp [isPrefixChars]
  | cons x xs ih =>
    cases b with
    | nil => simp [isPrefixChars]
    | cons y ys =>
      simp [isPrefixChars, ih, List.cons_prefix_cons]

theorem containsSub_iff (needle hay : List Char) :
    containsSub needle hay = true ↔ needle <:+: hay := by
  induction hay with
  | nil => simp [containsSub, List.isEmpty_iff]
  | cons c rest ih =>
    simp [containsSub, isPrefixChars_iff, ih, List.infix_cons_iff]

/-- `service_name` in `deploy_as_ecs_service` (setup.py:1626). -/
def campaignsServiceName : String := "resourcely-campaigns-agent"

/-- `any(service_name in s for s in services)` at setup.py:1631. -/
def serviceNameInArn (arn : String) : Bool :=
  containsSub campaignsServiceName.data arn.data

/-- What one invocation of `deploy_as_ecs_service` did. -/
structure DeployResult where
  exited : Bool
  earlyReturn : Bool
  secretWritten : Bool
  rolesEnsured : Bool
  registeredRevision : Bool
  /-- the task-definition ARN the created service references, if a service
  was created -/
  serviceTaskDef : Option String
deriving DecidableEq, Repr

/-- Outcome of the early `return` at setup.py:1631-1633: nothing after the
`list_services` check runs. -/
def earlyReturnResult : DeployResult :=
  { exited := false, earlyReturn := true, secretWritten := false,
    rolesEnsured := false, registeredRevision := false, serviceTaskDef := none }

/-- Outcome of the `sys.exit(1)` when `list_services` fails
(setup.py:1634-1636). -/
def listFailedResult : DeployResult :=
  { exited := true, earlyReturn := false, secretWritten := false,
    rolesEnsured := false, registeredRevision := false, serviceTaskDef := none }

/-- Outcome of a full deploy (setup.py:1638-1722): consolidated secret
created/updated, both roles ensured, a fresh task-definition revision
registered, service created referencing that revision. -/
def fullDeployResult (newTaskDefArn : String) : DeployResult :=
  { exited := false, earlyReturn := false, secretWritten := true,
    rolesEnsured := true, registeredRevision := true,
    serviceTaskDef := some newTaskDefArn }

/-- `deploy_as_ecs_service` (setup.py:1606-1722).  `listResult` is the
`serviceArns` answer of `ecs.list_services` (`none` models the
`ClientError` path); `newTaskDefArn` is the revision ARN the remote
`register_task_definition` would return.  Cluster creation
(`ensure_ecs_cluster`) happens before the service check and is not part of
this result. -/
def deployAsEcsService (listResult : Option (List String)) (newTaskDefArn : String) :
    DeployResult :=
  match listResult with
  | none => listFailedResult
  | some arns =>
    if arns.any serviceNameInArn then earlyReturnResult
    else fullDeployResult newTaskDefArn

/-- C2 is false on the code: when some listed service ARN contains the
service name, `deploy_as_ecs_service` returns before registering any
task-definition revision — registration is not unconditional, and the
pre-existing-service check short-circuits every deploy step, not only
service creation. -/
theorem deployAsEcsService_counterexample :
    (deployAsEcsService
        (some ["arn:aws:ecs:us-west-2:123456789012:service/resourcely-campaigns/resourcely-campaigns-agent"])
        "arn:aws:ecs:us-west-2:123456789012:task-definition/resourcely_campaigns_agent:7").registeredRevision
      = false ∧
    (deployAsEcsService
        (some ["arn:aws:ecs:us-west-2:123456789012:service/resourcely-campaigns/resourcely-campaigns-agent"])
        "arn:aws:ecs:us-west-2:123456789012:task-definition/resourcely_campaigns_agent:7").secretWritten
      = false := by
  decide

/-- C2 amended: only when no listed service ARN contains the service name
does `deploy_as_ecs_service` register a new task-definition revision and
create the service referencing exactly that new revision (together with
the secret write and role setup); when some ARN contains the name, the
deployer returns early and performs none of those steps. -/
theorem deployAsEcsService_registers_when_absent
    (arns : List String) (newTaskDefArn : String)
    (habsent : arns.any serviceNameInArn = false) :
    deployAsEcsService (some arns) newTaskDefArn = fullDeployResult newTaskDefArn ∧
    (deployAsEcsService (some arns) newTaskDefArn).registeredRevision = true ∧
    (deployAsEcsService (some arns) newTaskDefArn).serviceTaskDef = some newTaskDefArn ∧
    (∀ arns' : List String, arns'.any serviceNameInArn = true →
      deployAsEcsService (some arns') newTaskDefArn = earlyReturnResult) := by
  refine ⟨?_, ?_, ?_, ?_⟩
  · simp [deployAsEcsService, habsent]
  · simp [deployAsEcsService, habsent, fullDeployResult]
  · simp [deployAsEcsService, habsent, fullDeployResult]
  · intro arns' hpresent
    simp [deployAsEcsService, hpresent]

/-- Witness for the amended C2 at a concrete empty cluster. -/
theorem deployAsEcsService_registers_when_absent_witness :
    ([] : List String).any serviceNameInArn = false ∧
    deployAsEcsService (some []) "arn:td:1" = fullDeployResult "arn:td:1" :=
  ⟨by decide, (deployAsEcsService_registers_when_absent [] "arn:td:1" (by decide)).1⟩

/-- C8: `deploy_as_ecs_service` deploys nothing (takes the early-return
path) if and only if some service ARN returned by `list_services` contains
the string `"resourcely-campaigns-agent"` as a substring — substring
containment, not exact name equality. -/
theorem deployAsEcsService_early_return_iff (arns : List String) (newTaskDefArn : String) :
    deployAsEcsService (some arns) newTaskDefArn = earlyReturnResult ↔
      ∃ s ∈ arns, campaignsServiceName.data <:+: s.data := by
  constructor
  · intro h
    by_cases hany : arns.any serviceNameInArn
    · obtain ⟨s, hs, hin⟩ := List.any_eq_true.mp hany
      exact ⟨s, hs, (containsSub_iff _ _).mp hin⟩
    · rw [Bool.not_eq_true] at hany
      simp [deployAsEcsService, hany, fullDeployResult, earlyReturnResult] at h
  · rintro ⟨s, hs, hin⟩
    have hany : arns.any serviceNameInArn = true :=
      List.any_eq_true.mpr ⟨s, hs, (containsSub_iff _ _).mpr hin⟩
    simp [deployAsEcsService, hany]

/-! ### `wait_for_plan_job_success` (setup.py:788-835)

Each loop iteration observes a remote snapshot (`PlanObs`); fetch time is
idealised to zero, so iteration `k` starts at elapsed time `k * interval`
and the `while time.time() - start_time < timeout` guard is
`elapsed < timeout`. -/

/-- The job name checked at setup.py:820. -/
def planJobName : String :=
  "plan_and_apply / plan-and-apply-app-dev-us-west-2 / Plan Sandbox"

/-- One entry of the `jobs` array: `name`, `status`, `conclusion` (the
conclusion is `null` while the job runs). -/
structure JobInfo where
  name : String
  status : String
  conclusion : Option String
deriving DecidableEq, Repr

/-- What one polling iteration observes. -/
inductive PlanObs where
  | runsHttpError
  | noRuns
  | jobsHttpError
  | jobs (js : List JobInfo)
deriving DecidableEq, Repr

/-- Classification of a single iteration of the polling loop body. -/
inductive PlanStep where
  | success
  | jobFailed (conclusion : Option String)
  | httpExit
  | pending
deriving DecidableEq, Repr

/-- The `for job in jobs` loop (setup.py:819-829): jobs whose name differs,
or whose status is not `"completed"`, are skipped; a completed job with
conclusion `"success"` returns; a completed job with any other conclusion
exits the run. -/
def scanJobs : List JobInfo → PlanStep
  | [] => .pending
  | j :: rest =>
    if j.name = planJobName then
      if j.status = "completed" ∧ j.conclusion = some "success" then .success
      else if j.status = "completed" then .jobFailed j.conclusion
      else scanJobs rest
    else scanJobs rest

/-- One iteration of the `wait_for_plan_job_success` body (setup.py:800-833):
non-200 responses exit the run; no workflow run for the commit, or the
named job absent (or not yet completed), fall through to the sleep. -/
def planStep : PlanObs → PlanStep
  | .runsHttpError => .httpExit
  | .jobsHttpError => .httpExit
  | .noRuns => .pending
  | .jobs js => scanJobs js

/-- Final outcome of a polling loop. -/
inductive PollOutcome where
  | success
  | jobFailed (conclusion : Option String)
  | httpExit
  | timedOut
  | traceEnded
deriving DecidableEq, Repr

/-- `wait_for_plan_job_success` over a remote trace: returns the outcome
and the number of `time.sleep(poll_interval)` calls made.  `traceEnded` is
the artefact of a trace shorter than the loop would run. -/
def waitForPlanJob (timeout interval : Nat) : List PlanObs → Nat → PollOutcome × Nat
  | trace, elapsed =>
    if timeout ≤ elapsed then (.timedOut, 0)
    else
      match trace with
      | [] => (.traceEnded, 0)
      | obs :: rest =>
        match planStep obs with
        | .success => (.success, 0)
        | .jobFailed c => (.jobFailed c, 0)
        | .httpExit => (.httpExit, 0)
        | .pending =>
          let r := waitForPlanJob timeout interval rest (elapsed + interval)
          (r.1, r.2 + 1)

/-- C5: when the first evaluation is Pending and the second shows the named
job completed with a non-success conclusion, the poller aborts on that very
second evaluation surfacing that conclusion, after exactly one sleep — the
terminal failure is not followed by any further sleep or retry. -/
theorem waitForPlanJob_fatal_short_circuit
    (timeout interval : Nat) (obs1 obs2 : PlanObs) (rest : List PlanObs) (c : Option String)
    (h1 : planStep obs1 = .pending) (h2 : planStep obs2 = .jobFailed c)
    (hto : interval < timeout) :
    waitForPlanJob timeout interval (obs1 :: obs2 :: rest) 0 = (.jobFailed c, 1) := by
  rw [waitForPlanJob, if_neg (by omega : ¬ timeout ≤ 0)]
  rw [h1]
  rw [waitForPlanJob, if_neg (by omega : ¬ timeout ≤ 0 + interval)]
  rw [h2]

/-- Witness for C5: the outcome sequence [Pending, Failure "x"] with the
source's 600s/30s budget aborts with reason "x" after a single sleep. -/
theorem waitForPlanJob_fatal_short_circuit_witness :
    planStep .noRuns = .pending ∧
    planStep (.jobs [⟨planJobName, "completed", some "x"⟩]) = .jobFailed (some "x") ∧
    waitForPlanJob 600 30 [.noRuns, .jobs [⟨planJobName, "completed", some "x"⟩]] 0 =
      (.jobFailed (some "x"), 1) :=
  ⟨by decide, by decide,
   waitForPlanJob_fatal_short_circuit 600 30 _ _ [] _ (by decide) (by decide) (by decide)⟩

/-! ### `poll_yaml_config_diagnostics` (setup.py:880-921) and
`poll_agent_diagnostics` (setup.py:1853-1911) -/

/-- The per-repository diagnostics record: `result` (absent key → `none`)
and the `errors` array. -/
structure RepoDiag where
  result : Option String
  errors : List String
deriving DecidableEq, Repr

/-- One observation of the yaml-config diagnostics endpoint. -/
inductive YamlObs where
  | httpError (code : Nat)
  | body (repos : List (String × RepoDiag))

/-- Classification of one predicate evaluation. -/
inductive PredOutcome where
  | success
  | pending
  | failure (reason : String)
  | httpExit
deriving DecidableEq, Repr

def yamlValidResult : String := "TF_CONFIG_SCAN_RESULT_VALID_CONFIG"

/-- One attempt of `poll_yaml_config_diagnostics` (setup.py:898-915): a
non-200 response is printed and retried; a missing repository entry is
retried; only a valid result with an empty error list succeeds.  Nothing
maps to `failure`. -/
def yamlStep (repoUrl : String) : YamlObs → PredOutcome
  | .httpError _ => .pending
  | .body repos =>
    match lookupA ("https://github.com/" ++ repoUrl) repos with
    | none => .pending
    | some d =>
      if d.result = some yamlValidResult ∧ d.errors = [] then .success else .pending

/-- The attempt loop of `poll_yaml_config_diagnostics`: exactly
`max_attempts` evaluations, then `sys.exit(1)` (`timedOut`). -/
def pollYamlConfigDiagnostics (repoUrl : String) : Nat → List YamlObs → PollOutcome
  | 0, _ => .timedOut
  | _ + 1, [] => .traceEnded
  | n + 1, obs :: rest =>
    match yamlStep repoUrl obs with
    | .success => .success
    | _ => pollYamlConfigDiagnostics repoUrl n rest

/-- One check of a diagnostics record. -/
structure DiagCheck where
  ctype : String
  status : String
deriving DecidableEq, Repr

/-- One diagnostics record: a source and its checks. -/
structure Diagnostic where
  source : String
  checks : List DiagCheck
deriving DecidableEq, Repr

/-- `required_checks` of `poll_agent_diagnostics` (setup.py:1866-1870). -/
def agentRequiredTypes : List String :=
  ["DIAGNOSTIC_TYPE_CAMPAIGNS_AGENT_REGISTERED",
   "DIAGNOSTIC_TYPE_CAMPAIGNS_AGENT_REACHABLE",
   "DIAGNOSTIC_TYPE_CAMPAIGNS_AGENT_EVALUATIONS"]

def successStatus : String := "DIAGNOSTIC_STATUS_SUCCESS"

/-- The update at setup.py:1887-1890: a check of a required type overwrites
the recorded status unless an earlier check already recorded success. -/
def applyCheck (m : List (String × Option String)) (c : DiagCheck) :
    List (String × Option String) :=
  m.map fun p =>
    if p.1 = c.ctype ∧ p.2 ≠ some successStatus then (p.1, some c.status) else p

/-- `check_statuses` after the scan at setup.py:1881-1890. -/
def collectStatuses (diags : List Diagnostic) : List (String × Option String) :=
  diags.foldl (fun m d => d.checks.foldl applyCheck m)
    (agentRequiredTypes.map fun t => (t, none))

/-- `all_success` at setup.py:1893-1895. -/
def agentAllSuccess (diags : List Diagnostic) : Bool :=
  (collectStatuses diags).all fun p => p.2 = some successStatus

/-- One observation of the diagnostics endpoint by `poll_agent_diagnostics`. -/
inductive AgentObs where
  | httpError (code : Nat)
  | body (diags : List Diagnostic)

/-- One attempt of `poll_agent_diagnostics`: unlike the yaml poller, a
non-200 response exits the run (setup.py:1874-1876); a body succeeds only
when every required check recorded success, anything else is retried.
Nothing maps to `failure`. -/
def agentStep : AgentObs → PredOutcome
  | .httpError _ => .httpExit
  | .body diags => if agentAllSuccess diags then .success else .pending

/-- The attempt loop of `poll_agent_diagnostics`. -/
def pollAgentDiagnostics : Nat → List AgentObs → PollOutcome
  | 0, _ => .timedOut
  | _ + 1, [] => .traceEnded
  | n + 1, obs :: rest =>
    match agentStep obs with
    | .success => .success
    | .httpExit => .httpExit
    | _ => pollAgentDiagnostics n rest

theorem applyCheck_mem_none {m : List (String × Option String)} {t : String}
    (c : DiagCheck) (hm : (t, none) ∈ m) (ht : c.ctype ≠ t) :
    (t, (none : Option String)) ∈ applyCheck m c := by
  refine List.mem_map.mpr ⟨(t, none), hm, ?_⟩
  simp [Ne.symm ht]

theorem foldl_checks_mem_none {t : String} (checks : List DiagCheck) :
    ∀ m, (∀ c ∈ checks, c.ctype ≠ t) → (t, (none : Option String)) ∈ m →
      (t, (none : Option String)) ∈ checks.foldl applyCheck m := by
  induction checks with
  | nil => intro m _ hm; exact hm
  | cons c rest ih =>
    intro m habs hm
    exact ih _ (fun c' hc' => habs c' (List.mem_cons_of_mem _ hc'))
      (applyCheck_mem_none c hm (habs c (List.mem_cons_self c rest)))

theorem collectStatuses_mem_none {t : String} (diags : List Diagnostic)
    (ht : t ∈ agentRequiredTypes)
    (habs : ∀ d ∈ diags, ∀ c ∈ d.checks, c.ctype ≠ t) :
    (t, (none : Option String)) ∈ collectStatuses diags := by
  have hgen : ∀ (ds : List Diagnostic) (m : List (String × Option String)),
      (∀ d ∈ ds, ∀ c ∈ d.checks, c.ctype ≠ t) →
      (t, (none : Option String)) ∈ m →
      (t, (none : Option String)) ∈ ds.foldl (fun m d => d.checks.foldl applyCheck m) m := by
    intro ds
    induction ds with
    | nil => intro m _ hm; exact hm
    | cons d rest ih =>
      intro m habs' hm
      exact ih _ (fun d' hd' => habs' d' (List.mem_cons_of_mem _ hd'))
        (foldl_checks_mem_none d.checks m (habs' d (List.mem_cons_self d rest)) hm)
  exact hgen diags _ habs (List.mem_map.mpr ⟨t, ht, rfl⟩)

/-- C7: remote lookups whose subject is not found yet are classified as
Pending, never as Failure: no workflow run for the commit, the named job
absent from the run's job list, the repository missing from the yaml
diagnostics response, and a required agent diagnostic check not yet
present all map to the retry path; only a materialized completed job with
a non-success conclusion is ever classified as a terminal failure, and the
two diagnostics predicates classify nothing as a failure at all. -/
theorem not_found_classified_pending :
    planStep .noRuns = .pending ∧
    (∀ js : List JobInfo, (∀ j ∈ js, j.name ≠ planJobName) →
      planStep (.jobs js) = .pending) ∧
    (∀ obs c, planStep obs = .jobFailed c →
      ∃ js, obs = .jobs js ∧ ∃ j ∈ js, j.name = planJobName ∧
        j.status = "completed" ∧ j.conclusion ≠ some "success") ∧
    (∀ repoUrl repos, lookupA ("https://github.com/" ++ repoUrl) repos = none →
      yamlStep repoUrl (.body repos) = .pending) ∧
    (∀ repoUrl o r, yamlStep repoUrl o ≠ .failure r) ∧
    (∀ t diags, t ∈ agentRequiredTypes →
      (∀ d ∈ diags, ∀ c ∈ d.checks, c.ctype ≠ t) →
      agentStep (.body diags) = .pending) ∧
    (∀ o r, agentStep o ≠ .failure r) := by
  refine ⟨rfl, ?_, ?_, ?_, ?_, ?_, ?_⟩
  · intro js habs
    show scanJobs js = .pending
    induction js with
    | nil => rfl
    | cons j rest ih =>
      have hj : j.name ≠ planJobName := habs j (List.mem_cons_self j rest)
      rw [scanJobs, if_neg hj]
      exact ih fun j' hj' => habs j' (List.mem_cons_of_mem _ hj')
  · intro obs c h
    cases obs with
    | runsHttpError => cases h
    | jobsHttpError => cases h
    | noRuns => cases h
    | jobs js =>
      refine ⟨js, rfl, ?_⟩
      have : scanJobs js = .jobFailed c := h
      clear h
      induction js with
      | nil => cases this
      | cons j rest ih =>
        rw [scanJobs] at this
        by_cases hname : j.name = planJobName
        · rw [if_pos hname] at this
          by_cases hok : j.status = "completed" ∧ j.conclusion = some "success"
          · rw [if_pos hok] at this; cases this
          · rw [if_neg hok] at this
            by_cases hdone : j.status = "completed"
            · rw [if_pos hdone] at this
              cases this
              refine ⟨j, List.mem_cons_self j rest, hname, hdone, ?_⟩
              intro hc
              exact hok ⟨hdone, hc⟩
            · rw [if_neg hdone] at this
              obtain ⟨j', hj', hrest⟩ := ih this
              exact ⟨j', List.mem_cons_of_mem _ hj', hrest⟩
        · rw [if_neg hname] at this
          obtain ⟨j', hj', hrest⟩ := ih this
          exact ⟨j', List.mem_cons_of_mem _ hj', hrest⟩
  · intro repoUrl repos h
    simp [yamlStep, h]
  · intro repoUrl o r
    cases o with
    | httpError code => simp [yamlStep]
    | body repos =>
      rw [yamlStep]
      rcases lookupA ("https://github.com/" ++ repoUrl) repos with - | d
      · simp
      · by_cases h : d.result = some yamlValidResult ∧ d.errors = [] <;> simp [h]
  · intro t diags ht habs
    have hmem := collectStatuses_mem_none diags ht habs
    have hfalse : agentAllSuccess diags = false := by
      rw [agentAllSuccess]
      by_contra hcontra
      rw [Bool.not_eq_false, List.all_eq_true] at hcontra
      simpa using hcontra _ hmem
    simp [agentStep, hfalse]
  · intro o r
    cases o with
    | httpError code => simp [agentStep]
    | body diags => by_cases h : agentAllSuccess diags <;> simp [agentStep, h]

/-- Witness for C7: a job list without the named job, an empty diagnostics
body and an empty agent diagnostics list are all classified Pending. -/
theorem not_found_classified_pending_witness :
    planStep (.jobs [⟨"some other job", "completed", some "success"⟩]) = .pending ∧
    yamlStep "octo/repo" (.body []) = .pending ∧
    agentStep (.body []) = .pending :=
  ⟨not_found_classified_pending.2.1 _ (by decide),
   not_found_classified_pending.2.2.2.1 "octo/repo" [] rfl,
   not_found_classified_pending.2.2.2.2.2.1 "DIAGNOSTIC_TYPE_CAMPAIGNS_AGENT_REGISTERED" []
     (by decide) (by simp)⟩

/-! ### `create_oidc_provider` (setup.py:272-331) -/

/-- An IAM OIDC provider as seen through `list_open_id_connect_providers`
plus `get_open_id_connect_provider`: `url = none` models a `ClientError`
on the details call (the scan prints and continues). -/
structure OidcProvider where
  arn : String
  url : Option String
deriving DecidableEq, Repr

/-- Python `url.replace("https://", "")`: every occurrence of `https://`
removed, scanning left to right without overlap. -/
def stripHttps : List Char → List Char
  | 'h' :: 't' :: 't' :: 'p' :: 's' :: ':' :: '/' :: '/' :: rest => stripHttps rest
  | c :: rest => c :: stripHttps rest
  | [] => []

/-- URL normalization applied to both sides at setup.py:280,292,322. -/
def normalizeUrl (u : String) : String := ⟨stripHttps u.data⟩

def targetOidcUrl : String := "https://token.actions.githubusercontent.com"

/-- The provider scan (setup.py:285-294, repeated at 316-326): the first
provider whose normalized URL equals the normalized target wins; failed
detail lookups are skipped. -/
def findMatchingProvider : List OidcProvider → Option String
  | [] => none
  | ⟨_, none⟩ :: rest => findMatchingProvider rest
  | ⟨arn, some u⟩ :: rest =>
    if normalizeUrl u = normalizeUrl targetOidcUrl then some arn
    else findMatchingProvider rest

/-- How the remote reacts to `create_open_id_connect_provider`. -/
inductive CreateReaction where
  | created (arn : String)
  | alreadyExists
  | otherError
deriving DecidableEq, Repr

/-- `create_oidc_provider`: `providers₁` is the listing before creation is
attempted, `providers₂` the listing at re-resolution after an
`EntityAlreadyExists` race; the result `none` models `sys.exit(1)`. -/
def createOidcProvider (providers₁ providers₂ : List OidcProvider)
    (reaction : CreateReaction) : Option String :=
  match findMatchingProvider providers₁ with
  | some arn => some arn
  | none =>
    match reaction with
    | .created arn => some arn
    | .otherError => none
    | .alreadyExists => findMatchingProvider providers₂

theorem findMatchingProvider_some {l : List OidcProvider} {arn : String}
    (h : findMatchingProvider l = some arn) :
    ∃ p ∈ l, p.arn = arn ∧ ∃ u, p.url = some u ∧
      normalizeUrl u = normalizeUrl targetOidcUrl := by
  induction l with
  | nil => cases h
  | cons p rest ih =>
    obtain ⟨parn, purl⟩ := p
    rcases purl with - | u
    · rw [findMatchingProvider] at h
      obtain ⟨q, hq, hrest⟩ := ih h
      exact ⟨q, List.mem_cons_of_mem _ hq, hrest⟩
    · rw [findMatchingProvider] at h
      by_cases heq : normalizeUrl u = normalizeUrl targetOidcUrl
      · rw [if_pos heq] at h
        exact ⟨⟨parn, some u⟩, List.mem_cons_self _ rest, Option.some.inj h, u, rfl, heq⟩
      · rw [if_neg heq] at h
        obtain ⟨q, hq, hrest⟩ := ih h
        exact ⟨q, List.mem_cons_of_mem _ hq, hrest⟩

theorem findMatchingProvider_none {l : List OidcProvider}
    (h : ∀ p ∈ l, ∀ u, p.url = some u → normalizeUrl u ≠ normalizeUrl targetOidcUrl) :
    findMatchingProvider l = none := by
  induction l with
  | nil => rfl
  | cons p rest ih =>
    obtain ⟨parn, purl⟩ := p
    rcases purl with - | u
    · rw [findMatchingProvider]
      exact ih fun q hq => h q (List.mem_cons_of_mem _ hq)
    · rw [findMatchingProvider,
        if_neg (h ⟨parn, some u⟩ (List.mem_cons_self _ rest) u rfl)]
      exact ih fun q hq => h q (List.mem_cons_of_mem _ hq)

/-- C6: when creation was attempted (no match in the pre-creation listing)
and the remote answers `EntityAlreadyExists`, `create_oidc_provider`
returns the ARN of the existing provider whose normalized URL equals the
target (the first match of the re-listing), and exits the run only when no
such provider can be retrieved. -/
theorem createOidcProvider_race_resolves
    (providers₁ providers₂ : List OidcProvider)
    (h1 : findMatchingProvider providers₁ = none) :
    createOidcProvider providers₁ providers₂ .alreadyExists =
      findMatchingProvider providers₂ ∧
    (∀ arn, findMatchingProvider providers₂ = some arn →
      ∃ p ∈ providers₂, p.arn = arn ∧ ∃ u, p.url = some u ∧
        normalizeUrl u = normalizeUrl targetOidcUrl) ∧
    ((∀ p ∈ providers₂, ∀ u, p.url = some u →
        normalizeUrl u ≠ normalizeUrl targetOidcUrl) →
      createOidcProvider providers₁ providers₂ .alreadyExists = none) := by
  refine ⟨?_, ?_, ?_⟩
  · simp [createOidcProvider, h1]
  · intro arn h
    exact findMatchingProvider_some h
  · intro habs
    simp [createOidcProvider, h1, findMatchingProvider_none habs]

/-- The provider retrieved in the C6 witness scenario. -/
def c6Provider : OidcProvider :=
  { arn := "arn:aws:iam::123456789012:oidc-provider/token.actions.githubusercontent.com",
    url := some "token.actions.githubusercontent.com" }

/-- Witness for C6 at a concrete race: empty pre-creation listing, one
matching provider in the re-listing. -/
theorem createOidcProvider_race_resolves_witness :
    findMatchingProvider [] = none ∧
    createOidcProvider [] [c6Provider] .alreadyExists = findMatchingProvider [c6Provider] ∧
    findMatchingProvider [c6Provider] =
      some "arn:aws:iam::123456789012:oidc-provider/token.actions.githubusercontent.com" :=
  ⟨rfl, (createOidcProvider_race_resolves [] [c6Provider] rfl).1, by decide⟩

/-! ### `prompt_for_vpc_cidr` (setup.py:1366-1385) -/

/-- Python `str.strip()` (ASCII whitespace; Unicode whitespace forms are
outside this model). -/
def pyStrip (s : List Char) : List Char :=
  ((s.dropWhile Char.isWhitespace).reverse.dropWhile Char.isWhitespace).reverse

/-- Digit-and-underscore tail of a Python `int()` literal: a single
underscore is allowed only between two digits. -/
def parseDigits : List Char → Nat → Option Nat
  | [], acc => some acc
  | '_' :: c :: rest, acc =>
    if c.isDigit then parseDigits rest (acc * 10 + (c.toNat - 48)) else none
  | c :: rest, acc =>
    if c.isDigit then parseDigits rest (acc * 10 + (c.toNat - 48)) else none

/-- A nonempty ASCII digit string (with optional single underscores). -/
def parseNat : List Char → Option Nat
  | [] => none
  | c :: rest => if c.isDigit then parseDigits rest (c.toNat - 48) else none

/-- Python `int(s)` on ASCII input: optional surrounding whitespace, one
optional sign, then digits with single underscores; anything else raises
`ValueError` (`none`).  Unicode digit forms are outside this model. -/
def pyIntParse (s : List Char) : Option Int :=
  match pyStrip s with
  | '+' :: rest => (parseNat rest).map Int.ofNat
  | '-' :: rest => (parseNat rest).map fun n => -(n : Int)
  | rest => (parseNat rest).map Int.ofNat

/-- The `options` list at setup.py:1371. -/
def vpcCidrOptions : List String := ["10.0.0.0/16", "192.168.0.0/16", "172.31.0.0/16"]

/-- `idx` as computed at setup.py:1376-1382: `int(choice) - 1` for a
nonempty stripped answer, 0 for an empty one; a `ValueError` from `int` or
an out-of-range index falls to the `except`/default branch (`idx = 0`). -/
def vpcChoiceIdx (choice : List Char) : Nat :=
  if choice = [] then 0
  else
    match pyIntParse choice with
    | none => 0
    | some n => if n - 1 < 0 ∨ 3 ≤ n - 1 then 0 else (n - 1).toNat

/-- `prompt_for_vpc_cidr` as a function of the operator's raw answer. -/
def promptForVpcCidr (rawInput : String) : String :=
  vpcCidrOptions.getD (vpcChoiceIdx (pyStrip rawInput.data)) "10.0.0.0/16"

theorem getD_vpcCidrOptions_mem (idx : Nat) :
    vpcCidrOptions.getD idx "10.0.0.0/16" ∈ vpcCidrOptions := by
  rcases idx with - | - | - | n <;> simp [vpcCidrOptions]

/-- C9: `prompt_for_vpc_cidr` never aborts on bad operator input: every
answer yields one of the three fixed CIDR options, and an empty,
non-numeric, or out-of-range (outside 1..3) answer yields the default
`10.0.0.0/16`. -/
theorem promptForVpcCidr_total (rawInput : String) :
    promptForVpcCidr rawInput ∈ vpcCidrOptions ∧
    (pyStrip rawInput.data = [] → promptForVpcCidr rawInput = "10.0.0.0/16") ∧
    (pyIntParse (pyStrip rawInput.data) = none →
      promptForVpcCidr rawInput = "10.0.0.0/16") ∧
    (∀ n : Int, pyIntParse (pyStrip rawInput.data) = some n → (n < 1 ∨ 3 < n) →
      promptForVpcCidr rawInput = "10.0.0.0/16") := by
  refine ⟨getD_vpcCidrOptions_mem _, ?_, ?_, ?_⟩
  · intro hempty
    simp [promptForVpcCidr, vpcChoiceIdx, hempty, vpcCidrOptions]
  · intro hnone
    by_cases hempty : pyStrip rawInput.data = []
    · simp [promptForVpcCidr, vpcChoiceIdx, hempty, vpcCidrOptions]
    · simp [promptForVpcCidr, vpcChoiceIdx, hempty, hnone, vpcCidrOptions]
  · intro n hsome hrange
    by_cases hempty : pyStrip rawInput.data = []
    · simp [promptForVpcCidr, vpcChoiceIdx, hempty, vpcCidrOptions]
    · have hidx : n < 1 ∨ 3 ≤ n - 1 := by omega
      simp [promptForVpcCidr, vpcChoiceIdx, hempty, hsome, hidx, vpcCidrOptions]

/-- Witness for C9: a non-numeric answer and an empty answer both yield the
default CIDR. -/
theorem promptForVpcCidr_total_witness :
    pyIntParse (pyStrip "abc".data) = none ∧
    promptForVpcCidr "abc" = "10.0.0.0/16" ∧
    promptForVpcCidr "" = "10.0.0.0/16" :=
  ⟨by decide, (promptForVpcCidr_total "abc").2.2.1 (by decide),
   (promptForVpcCidr_total "").2.1 (by decide)⟩

/-! ### `parse_github_repo` (setup.py:35-47) -/

def sshPrefixChars : List Char := "git@github.com:".data

def httpsPrefixChars : List Char := "https://github.com/".data

/-- Python `repo.replace(".git", "")`: every non-overlapping occurrence of
`.git` removed scanning left to right — not only a trailing suffix. -/
def removeDotGit : List Char → List Char
  | '.' :: 'g' :: 'i' :: 't' :: rest => removeDotGit rest
  | c :: rest => c :: removeDotGit rest
  | [] => []

/-- The character class `[^/]`. -/
def notSlash (c : Char) : Bool := c ≠ '/'

/-- Greedy match of `(?P<owner>[^/]+)/(?P<repo>[^/]+)` at the start of
`rest`.  The source regex's trailing optional `(\.git)?` group never
captures anything, because the greedy `[^/]+` has already consumed any
`.git`, and `re.match` allows arbitrary trailing text after the match. -/
def matchOwnerRepo (rest : List Char) : Option (List Char × List Char) :=
  if rest.takeWhile notSlash = [] then none
  else
    match rest.dropWhile notSlash with
    | _ :: rest2 =>
      -- the head of `dropWhile notSlash` is necessarily the literal '/'
      if rest2.takeWhile notSlash = [] then none
      else some (rest.takeWhile notSlash, rest2.takeWhile notSlash)
    | [] => none

/-- `parse_github_repo`: the SSH pattern is tried first, then the HTTPS
pattern; `none` models the `sys.exit(1)` branch.  On a match the owner
group is returned unchanged and the repo group with every occurrence of
`.git` removed. -/
def parseGithubRepo (url : List Char) : Option (List Char × List Char) :=
  let viaSsh :=
    if isPrefixChars sshPrefixChars url then
      matchOwnerRepo (url.drop sshPrefixChars.length)
    else none
  let viaHttps :=
    if isPrefixChars httpsPrefixChars url then
      matchOwnerRepo (url.drop httpsPrefixChars.length)
    else none
  match viaSsh with
  | some (owner, repo) => some (owner, removeDotGit repo)
  | none =>
    match viaHttps with
    | some (owner, repo) => some (owner, removeDotGit repo)
    | none => none

/-- `url` is matched by the regex `pre(?P<owner>[^/]+)/(?P<repo>[^/]+)(\.git)?`
under `re.match` semantics: prefix, a maximal nonempty slash-free owner, a
slash, a maximal nonempty slash-free repo segment, and then either nothing
or a further slash-led tail (the match is unanchored on the right, and
maximality of the repo group forces the tail to start with `/`). -/
def MatchesPat (pre url : List Char) : Prop :=
  ∃ owner repo rest,
    url = pre ++ (owner ++ '/' :: (repo ++ rest)) ∧
    owner ≠ [] ∧ (∀ c ∈ owner, c ≠ '/') ∧
    repo ≠ [] ∧ (∀ c ∈ repo, c ≠ '/') ∧
    (rest = [] ∨ ∃ t, rest = '/' :: t)

theorem takeWhile_append_cons (p : Char → Bool) (xs : List Char) (z : Char) (ys : List Char)
    (hx : ∀ x ∈ xs, p x = true) (hz : p z = false) :
    (xs ++ z :: ys).takeWhile p = xs ∧ (xs ++ z :: ys).dropWhile p = z :: ys := by
  induction xs with
  | nil => simp [List.takeWhile_cons, List.dropWhile_cons, hz]
  | cons x xs ih =>
    have hpx : p x = true := hx x (List.mem_cons_self x xs)
    have hrest := ih fun x' hx' => hx x' (List.mem_cons_of_mem _ hx')
    simp [List.takeWhile_cons, List.dropWhile_cons, hpx, hrest.1, hrest.2]

theorem takeWhile_all (p : Char → Bool) (xs : List Char)
    (hx : ∀ x ∈ xs, p x = true) :
    xs.takeWhile p = xs ∧ xs.dropWhile p = [] := by
  induction xs with
  | nil => simp
  | cons x xs ih =>
    have hpx : p x = true := hx x (List.mem_cons_self x xs)
    have hrest := ih fun x' hx' => hx x' (List.mem_cons_of_mem _ hx')
    simp [List.takeWhile_cons, List.dropWhile_cons, hpx, hrest.1, hrest.2]

theorem dropWhile_head_false (p : Char → Bool) (l : List Char) {z : Char} {t : List Char}
    (h : l.dropWhile p = z :: t) : p z = false := by
  induction l with
  | nil => cases h
  | cons x xs ih =>
    rw [List.dropWhile_cons] at h
    by_cases hx : p x = true
    · rw [if_pos hx] at h
      exact ih h
    · rw [if_neg hx] at h
      cases h
      exact Bool.not_eq_true _ |>.mp hx

theorem notSlash_iff (c : Char) : notSlash c = true ↔ c ≠ '/' := by
  simp [notSlash]

/-- Evaluation of `matchOwnerRepo` on a decomposed tail. -/
theorem matchOwnerRepo_eval (owner repo rest : List Char)
    (ho : owner ≠ []) (hoc : ∀ c ∈ owner, c ≠ '/')
    (hr : repo ≠ []) (hrc : ∀ c ∈ repo, c ≠ '/')
    (htail : rest = [] ∨ ∃ t, rest = '/' :: t) :
    matchOwnerRepo (owner ++ '/' :: (repo ++ rest)) = some (owner, repo) := by
  have hoc' : ∀ c ∈ owner, notSlash c = true := fun c hc => (notSlash_iff c).mpr (hoc c hc)
  have hrc' : ∀ c ∈ repo, notSlash c = true := fun c hc => (notSlash_iff c).mpr (hrc c hc)
  have hslash : notSlash '/' = false := by simp [notSlash]
  have h1 := takeWhile_append_cons notSlash owner '/' (repo ++ rest) hoc' hslash
  have h2 : (repo ++ rest).takeWhile notSlash = repo ∧
      (repo ++ rest).dropWhile notSlash = rest := by
    rcases htail with rfl | ⟨t, rfl⟩
    · simpa using takeWhile_all notSlash repo hrc'
    · exact takeWhile_append_cons notSlash repo '/' t hrc' hslash
  rw [matchOwnerRepo, h1.1, h1.2, if_neg (by simpa using ho)]
  simp [h2.1, hr]

/-- Reconstruction: a successful `matchOwnerRepo` exhibits the
decomposition. -/
theorem matchOwnerRepo_some {rest : List Char} {owner repo : List Char}
    (h : matchOwnerRepo rest = some (owner, repo)) :
    ∃ tail, rest = owner ++ '/' :: (repo ++ tail) ∧
      owner ≠ [] ∧ (∀ c ∈ owner, c ≠ '/') ∧
      repo ≠ [] ∧ (∀ c ∈ repo, c ≠ '/') ∧
      (tail = [] ∨ ∃ t, tail = '/' :: t) := by
  rw [matchOwnerRepo] at h
  by_cases howner : rest.takeWhile notSlash = []
  · rw [if_pos howner] at h
    cases h
  · rw [if_neg howner] at h
    rcases hdrop : rest.dropWhile notSlash with - | ⟨z, rest2⟩
    · rw [hdrop] at h
      cases h
    · have hz : notSlash z = false := dropWhile_head_false notSlash rest hdrop
      have hzslash : z = '/' := by
        by_contra hzc
        simp [notSlash, hzc] at hz
      subst hzslash
      rw [hdrop] at h
      simp only at h
      by_cases hrepo : rest2.takeWhile notSlash = []
      · rw [if_pos hrepo] at h
        cases h
      · rw [if_neg hrepo] at h
        have hinj := Option.some.inj h
        obtain ⟨rfl, rfl⟩ : rest.takeWhile notSlash = owner ∧
            rest2.takeWhile notSlash = repo := by
          constructor
          · exact congrArg Prod.fst hinj
          · exact congrArg Prod.snd hinj
        refine ⟨rest2.dropWhile notSlash, ?_, howner,
          fun c hc => (notSlash_iff c).mp (List.mem_takeWhile_imp hc), hrepo,
          fun c hc => (notSlash_iff c).mp (List.mem_takeWhile_imp hc), ?_⟩
        · conv_rhs => rw [List.takeWhile_append_dropWhile notSlash rest2]
          rw [← hdrop, List.takeWhile_append_dropWhile]
        · rcases hd2 : rest2.dropWhile notSlash with - | ⟨w, t⟩
          · exact Or.inl rfl
          · have hw : notSlash w = false := dropWhile_head_false notSlash rest2 hd2
            have : w = '/' := by
              by_contra hwc
              simp [notSlash, hwc] at hw
            exact Or.inr ⟨t, by rw [this]⟩

theorem MatchesPat_isPrefix {pre url : List Char} (h : MatchesPat pre url) :
    isPrefixChars pre url = true := by
  obtain ⟨o, r, t, rfl, -⟩ := h
  exact (isPrefixChars_iff _ _).mpr (List.prefix_append _ _)

/-- C10: every URL matching the SSH pattern or the HTTPS pattern parses to
the owner unchanged and the repo segment with every occurrence of `.git`
removed (not only a trailing suffix), and every URL matching neither
pattern exits the run. -/
theorem parseGithubRepo_spec :
    (∀ owner repo rest : List Char, owner ≠ [] → (∀ c ∈ owner, c ≠ '/') →
      repo ≠ [] → (∀ c ∈ repo, c ≠ '/') → (rest = [] ∨ ∃ t, rest = '/' :: t) →
      parseGithubRepo (sshPrefixChars ++ (owner ++ '/' :: (repo ++ rest))) =
        some (owner, removeDotGit repo) ∧
      parseGithubRepo (httpsPrefixChars ++ (owner ++ '/' :: (repo ++ rest))) =
        some (owner, removeDotGit repo)) ∧
    (∀ url, ¬ MatchesPat sshPrefixChars url → ¬ MatchesPat httpsPrefixChars url →
      parseGithubRepo url = none) := by
  constructor
  · intro owner repo rest ho hoc hr hrc htail
    have hmor := matchOwnerRepo_eval owner repo rest ho hoc hr hrc htail
    constructor
    · have hpre : isPrefixChars sshPrefixChars
          (sshPrefixChars ++ (owner ++ '/' :: (repo ++ rest))) = true :=
        (isPrefixChars_iff _ _).mpr (List.prefix_append _ _)
      simp [parseGithubRepo, hpre, List.drop_left, hmor]
    · have hpre : isPrefixChars httpsPrefixChars
          (httpsPrefixChars ++ (owner ++ '/' :: (repo ++ rest))) = true :=
        (isPrefixChars_iff _ _).mpr (List.prefix_append _ _)
      have hnossh : isPrefixChars sshPrefixChars
          (httpsPrefixChars ++ (owner ++ '/' :: (repo ++ rest))) = false := rfl
      simp [parseGithubRepo, hpre, hnossh, List.drop_left, hmor]
  · intro url hns hnh
    by_cases h1 : isPrefixChars sshPrefixChars url = true
    · obtain ⟨t1, rfl⟩ := (isPrefixChars_iff _ _).mp h1
      rcases hm : matchOwnerRepo t1 with - | ⟨o, r⟩
      · have h2 : isPrefixChars httpsPrefixChars (sshPrefixChars ++ t1) = false := rfl
        simp [parseGithubRepo, h1, h2, List.drop_left, hm]
      · obtain ⟨tail, heq, ho, hoc, hr, hrc, htail⟩ := matchOwnerRepo_some hm
        exact absurd ⟨o, r, tail, by rw [heq], ho, hoc, hr, hrc, htail⟩ hns
    · by_cases h2 : isPrefixChars httpsPrefixChars url = true
      · obtain ⟨t2, rfl⟩ := (isPrefixChars_iff _ _).mp h2
        rcases hm : matchOwnerRepo t2 with - | ⟨o, r⟩
        · have h1' : isPrefixChars sshPrefixChars (httpsPrefixChars ++ t2) = false := rfl
          simp [parseGithubRepo, h1', h2, List.drop_left, hm]
        · obtain ⟨tail, heq, ho, hoc, hr, hrc, htail⟩ := matchOwnerRepo_some hm
          exact absurd ⟨o, r, tail, by rw [heq], ho, hoc, hr, hrc, htail⟩ hnh
      · simp [parseGithubRepo, h1, h2]

/-- Witness for C10: an SSH URL whose repo segment contains an inner
`.git`, an HTTPS URL with a `.git` suffix, and a URL matching neither
pattern. -/
theorem parseGithubRepo_spec_witness :
    parseGithubRepo "git@github.com:alaamub/my.gitrepo.git".data =
      some ("alaamub".data, "myrepo".data) ∧
    parseGithubRepo "https://github.com/alaamub/scaffolding-github-actions-campaigns.git".data =
      some ("alaamub".data, "scaffolding-github-actions-campaigns".data) ∧
    parseGithubRepo "ssh://example.com/foo".data = none := by
  refine ⟨?_, ?_, ?_⟩
  · have h := (parseGithubRepo_spec.1 "alaamub".data "my.gitrepo.git".data []
      (by decide) (by decide) (by decide) (by decide) (Or.inl rfl)).1
    rw [show "git@github.com:alaamub/my.gitrepo.git".data =
      sshPrefixChars ++ ("alaamub".data ++ '/' :: ("my.gitrepo.git".data ++ [])) from by decide,
      h]
    decide
  · have h := (parseGithubRepo_spec.1 "alaamub".data
      "scaffolding-github-actions-campaigns.git".data []
      (by decide) (by decide) (by decide) (by decide) (Or.inl rfl)).2
    rw [show "https://github.com/alaamub/scaffolding-github-actions-campaigns.git".data =
      httpsPrefixChars ++ ("alaamub".data ++ '/' ::
        ("scaffolding-github-actions-campaigns.git".data ++ [])) from by decide,
      h]
    decide
  · refine parseGithubRepo_spec.2 _ (fun hm => ?_) (fun hm => ?_)
    · exact absurd (MatchesPat_isPrefix hm) (by decide)
    · exact absurd (MatchesPat_isPrefix hm) (by decide)

/-! ### `ensure_ngrok_setup` (setup.py:1008-1065) -/

/-- The `tunnel` object of the campaigns-infrastructure payload
(`endpoint_url` is only printed and omitted here). -/
structure NgrokTunnel where
  seed : String
  authToken : String
deriving DecidableEq, Repr

/-- A decoded campaigns-infrastructure payload. -/
structure NgrokData where
  tunnel : Option NgrokTunnel
deriving DecidableEq, Repr

/-- `load_ngrok_credentials` (setup.py:971-992): the credentials file, when
present and holding a truthy `tunnel` with truthy `seed` and `auth_token`,
is returned; otherwise `None`.  (A truthy string is a nonempty one.) -/
def loadNgrokCredentials (file : Option NgrokData) : Option NgrokData :=
  match file with
  | none => none
  | some d =>
    match d.tunnel with
    | none => none
    | some t => if t.seed ≠ "" ∧ t.authToken ≠ "" then some d else none

/-- Outcome of the GET on the infrastructure endpoint: `ok` is an HTTP 200
with a decoded body, `failure` is an exception or any non-200 status. -/
inductive GetResult where
  | ok (d : NgrokData)
  | failure
deriving DecidableEq, Repr

/-- `ensure_ngrok_setup`: the result `none` models `sys.exit(1)`.
`postStatus`/`postBody` describe the remote answer to the provisioning
POST, used only when the GET yielded no tunnel. -/
def ensureNgrokSetup (file : Option NgrokData) (getRes : GetResult)
    (postStatus : Nat) (postBody : NgrokData) : Option NgrokData :=
  match loadNgrokCredentials file with
  | some d => some d
  | none =>
    let data : Option NgrokData :=
      match getRes with
      | .ok d => some d
      | .failure => none
    match data.bind (fun d => d.tunnel) with
    | some _ => data
    | none =>
      if postStatus = 200 ∨ postStatus = 201 then
        match postBody.tunnel with
        | some _ => some postBody
        | none => none
      else none

/-- C4 is false on the code: a non-success GET on the infrastructure
endpoint inside `ensure_ngrok_setup` does not terminate the run — it is
printed and bypassed, and the run proceeds to provision via POST and
completes; likewise a non-200 diagnostics response inside
`poll_yaml_config_diagnostics` is retried, and the poller can still
succeed on a later attempt. -/
theorem ensureNgrokSetup_counterexample :
    ensureNgrokSetup none .failure 201 { tunnel := some { seed := "s", authToken := "t" } } =
      some { tunnel := some { seed := "s", authToken := "t" } } ∧
    pollYamlConfigDiagnostics "alaamub/scaffolding-github-actions-campaigns" 5
      [.httpError 500,
       .body [("https://github.com/alaamub/scaffolding-github-actions-campaigns",
               { result := some yamlValidResult, errors := [] })]] = .success := by
  constructor
  · rfl
  · decide

/-- C4 amended: after a failed or non-200 GET, `ensure_ngrok_setup`
proceeds to the provisioning POST as if the tunnel were absent, aborting
the run only when the POST status is outside {200, 201} or its body lacks
a tunnel; and `poll_yaml_config_diagnostics` treats a non-200 response as
one consumed retry attempt, aborting only once `max_attempts` attempts are
exhausted. -/
theorem ensureNgrokSetup_swallows_get_failure (postStatus : Nat) (postBody : NgrokData)
    (repoUrl : String) (n : Nat) (code : Nat) (obs : List YamlObs)
    (hok : postStatus = 200 ∨ postStatus = 201) :
    ensureNgrokSetup none .failure postStatus postBody =
      (match postBody.tunnel with
       | some _ => some postBody
       | none => none) ∧
    (∀ badStatus : Nat, ¬ (badStatus = 200 ∨ badStatus = 201) →
      ensureNgrokSetup none .failure badStatus postBody = none) ∧
    pollYamlConfigDiagnostics repoUrl (n + 1) (.httpError code :: obs) =
      pollYamlConfigDiagnostics repoUrl n obs ∧
    pollYamlConfigDiagnostics repoUrl 0 obs = .timedOut := by
  refine ⟨?_, ?_, rfl, rfl⟩
  · simp only [ensureNgrokSetup, loadNgrokCredentials, Option.bind]
    rw [if_pos hok]
  · intro badStatus hbad
    simp only [ensureNgrokSetup, loadNgrokCredentials, Option.bind]
    rw [if_neg hbad]

/-- Witness for the amended C4: a 201 POST with a tunnel succeeds after the
failed GET; a 500 POST aborts. -/
theorem ensureNgrokSetup_swallows_get_failure_witness :
    ((201 : Nat) = 200 ∨ (201 : Nat) = 201) ∧
    ensureNgrokSetup none .failure 201 { tunnel := some { seed := "s", authToken := "t" } } =
      some { tunnel := some { seed := "s", authToken := "t" } } ∧
    ensureNgrokSetup none .failure 500 { tunnel := some { seed := "s", authToken := "t" } } =
      none :=
  ⟨Or.inr rfl,
   (ensureNgrokSetup_swallows_get_failure 201
      { tunnel := some { seed := "s", authToken := "t" } } "o/r" 0 500 [] (Or.inr rfl)).1,
   (ensureNgrokSetup_swallows_get_failure 201
      { tunnel := some { seed := "s", authToken := "t" } } "o/r" 0 500 [] (Or.inr rfl)).2.1
      500 (by decide)⟩

end Setup
